import Mathlib

/-!
Shallow embedding of the authorization/trust engine (`ChallengeAuth`) and the
message router (`TransportManager`) of the vscode-chonky-remote-pilot
repository, together with theorems settling the spec's claims about them.

Modelling conventions:
* JavaScript `Map<string, V>` objects become association lists
  `List (String × V)` in insertion order; `Map.get` is `lookupKey`,
  `Map.set` is `setKey` (replace in place, or append when absent, matching
  JS insertion-order semantics), `Map.delete` is `eraseKey`.
* JavaScript `Set<string>` becomes `List String` with `memKey` / `addKey`
  / `delKey`.
* Timestamps (`Date.now()`, `Date` objects, ISO strings parsed back to
  dates) are integer milliseconds (`Int`); an operation that reads the
  clock takes `now : Int` explicitly.
* Methods that mutate `this` become functions `AuthState → ... → AuthState`
  (paired with their return value where the source returns one).
* The VS Code `SecretStorage` collaborator becomes the `storage` field:
  `saveToStorage` writes the serialized trusted-user map there and
  `loadFromStorage` reads it.
* `Math.random`-generated challenge codes are taken as parameters.
* Outbound chat replies and VS Code notifications are side effects with no
  feedback into the state; the router model records which reply branch was
  taken in a `RouteOutcome` value instead of performing them.
-/

/-- Association-list lookup: first entry with the given key (JS `Map.get`). -/
def lookupKey {α : Type} : List (String × α) → String → Option α
  | [], _ => none
  | (k, v) :: rest, q => if k = q then some v else lookupKey rest q

/-- JS `Map.set`: replace the value in place when the key exists, else append. -/
def setKey {α : Type} : List (String × α) → String → α → List (String × α)
  | [], q, v => [(q, v)]
  | (k, w) :: rest, q, v =>
      if k = q then (q, v) :: rest else (k, w) :: setKey rest q v

/-- JS `Map.delete`: remove the entry with the given key. -/
def eraseKey {α : Type} : List (String × α) → String → List (String × α)
  | [], _ => []
  | (k, v) :: rest, q =>
      if k = q then eraseKey rest q else (k, v) :: eraseKey rest q

/-- JS `Set.has`. -/
def memKey : List String → String → Bool
  | [], _ => false
  | x :: rest, q => if x = q then true else memKey rest q

/-- JS `Set.add` (no duplicate insertion). -/
def addKey (xs : List String) (q : String) : List String :=
  if memKey xs q then xs else xs ++ [q]

/-- JS `Set.delete`. -/
def delKey : List String → String → List String
  | [], _ => []
  | x :: rest, q => if x = q then delKey rest q else x :: delKey rest q


/-- `ExternalMessage` from `ITransportProvider.ts`; `timestamp` is epoch ms. -/
structure ExternalMessage where
  id : String
  chatId : String
  userId : String
  username : Option String
  content : String
  timestamp : Int
  transport : String
  isDM : Bool
  mentionsBot : Bool
  channelName : Option String
deriving DecidableEq, Repr

/-- `PendingChallenge`; `key` holds the 6-digit code, `expiresAt` epoch ms. -/
structure PendingChallenge where
  key : String
  expiresAt : Int
  attempts : Int
deriving DecidableEq, Repr

/-- `BlockedUser`: lockout record; `untilMs` is the source's `until` field
(end of the lockout in epoch ms), renamed because `until` is reserved. -/
structure BlockedUser where
  untilMs : Int
deriving DecidableEq, Repr

/-- `TrustedUser`; the two ISO date strings are modelled as epoch ms. -/
structure TrustedUser where
  transport : String
  userId : String
  username : String
  dmChatId : String
  authenticatedAt : Int
  lastActiveAt : Int
deriving DecidableEq, Repr

/-- `AuthorizedChannel`; `mode` is kept as the raw string stored by the code
(the TS union type is bypassed by an unchecked cast in the admin-command
path, so any string can be stored; `canRespondTo` treats unknown strings
via its `default` switch arm). -/
structure AuthorizedChannel where
  transport : String
  channelId : String
  channelName : Option String
  authorizedBy : String
  authorizedAt : Int
  mode : String
deriving DecidableEq, Repr

/-- Seen-channel cache entry. -/
structure SeenChannel where
  channelId : String
  channelName : String
deriving DecidableEq, Repr

/-- `PersistedAuthData`: the versioned snapshot stored in SecretStorage. -/
structure PersistedAuthData where
  trustedUsers : List (String × TrustedUser)
  version : Int
deriving DecidableEq, Repr

/-- The mutable fields of the `ChallengeAuth` singleton, plus the content of
the SecretStorage slot it persists to (`none` = no stored document). -/
structure AuthState where
  authenticatedChats : List String
  pendingChallenges : List (String × PendingChallenge)
  blockedUsers : List (String × BlockedUser)
  trustedUsers : List (String × TrustedUser)
  authorizedChannels : List (String × AuthorizedChannel)
  seenChannels : List (String × SeenChannel)
  storage : Option PersistedAuthData
deriving DecidableEq, Repr

/-- The empty engine state with empty storage. -/
def AuthState.empty : AuthState :=
  ⟨[], [], [], [], [], [], none⟩

/-- `ChallengeAuth.STORAGE_VERSION`. -/
def STORAGE_VERSION : Int := 1

/-- `ChallengeAuth.TRUST_EXPIRY_DAYS`. -/
def TRUST_EXPIRY_DAYS : Int := 30

/-- `ChallengeAuth.CHALLENGE_EXPIRY_MS` (2 minutes). -/
def CHALLENGE_EXPIRY_MS : Int := 2 * 60 * 1000

/-- `ChallengeAuth.MAX_ATTEMPTS`. -/
def MAX_ATTEMPTS : Int := 3

/-- `ChallengeAuth.BLOCK_DURATION_MS` (5 minutes). -/
def BLOCK_DURATION_MS : Int := 5 * 60 * 1000

/-- One day in milliseconds (the `1000 * 60 * 60 * 24` divisor). -/
def DAY_MS : Int := 1000 * 60 * 60 * 24

/-- `makeKey(transport, id)` = `` `${transport}:${id}` ``. -/
def makeKey (transport id : String) : String :=
  transport ++ ":" ++ id

/-- `makeUserKey` (same formula as `makeKey`). -/
def makeUserKey (transport userId : String) : String :=
  transport ++ ":" ++ userId

/-- `makeChannelKey` (same formula as `makeKey`). -/
def makeChannelKey (transport channelId : String) : String :=
  transport ++ ":" ++ channelId

/-- `saveToStorage`: serialize the current trusted-user map with the storage
version into the SecretStorage slot. -/
def saveToStorage (s : AuthState) : AuthState :=
  { s with storage := some ⟨s.trustedUsers, STORAGE_VERSION⟩ }

/-- `isAuthenticated`. -/
def isAuthenticated (s : AuthState) (transport chatId : String) : Bool :=
  memKey s.authenticatedChats (makeKey transport chatId)

/-- `isUserTrusted`. -/
def isUserTrusted (s : AuthState) (transport userId : String) : Bool :=
  (lookupKey s.trustedUsers (makeUserKey transport userId)).isSome

/-- `getTrustedUser`. -/
def getTrustedUser (s : AuthState) (transport userId : String) : Option TrustedUser :=
  lookupKey s.trustedUsers (makeUserKey transport userId)

/-- `trustUser` (the `new Date().toISOString()` timestamps are `now`). -/
def trustUser (s : AuthState) (now : Int) (transport userId username dmChatId : String) :
    AuthState :=
  let key := makeUserKey transport userId
  let user : TrustedUser := ⟨transport, userId, username, dmChatId, now, now⟩
  saveToStorage { s with trustedUsers := setKey s.trustedUsers key user }

/-- `touchUser`: update `lastActiveAt` in memory only (no storage flush). -/
def touchUser (s : AuthState) (now : Int) (transport userId : String) : AuthState :=
  let key := makeUserKey transport userId
  match lookupKey s.trustedUsers key with
  | none => s
  | some user =>
      { s with trustedUsers := setKey s.trustedUsers key { user with lastActiveAt := now } }

/-- `untrustUser`: cascade-delete the channels the user authorized, drop the
legacy authenticated-chat entry for their DM, drop the trusted-user entry,
flush the ledger; returns whether a user was removed. -/
def untrustUser (s : AuthState) (transport userId : String) : Bool × AuthState :=
  let key := makeUserKey transport userId
  match lookupKey s.trustedUsers key with
  | some user =>
      let s1 := { s with
        authorizedChannels :=
          s.authorizedChannels.filter (fun p => p.2.authorizedBy ≠ key),
        authenticatedChats := delKey s.authenticatedChats (makeKey transport user.dmChatId),
        trustedUsers := eraseKey s.trustedUsers key }
      (true, saveToStorage s1)
  | none => (false, s)

/-- `getAllTrustedUsers` (values in insertion order, optionally filtered). -/
def getAllTrustedUsers (s : AuthState) (transport : Option String) : List TrustedUser :=
  let users := s.trustedUsers.map Prod.snd
  match transport with
  | some t => users.filter (fun u => u.transport = t)
  | none => users

/-- `authorizeChannel`: fails unless the acting user is trusted; otherwise
insert-or-overwrite the authorized-channel record. -/
def authorizeChannel (s : AuthState) (now : Int)
    (transport channelId authorizedByUserId : String)
    (channelName : Option String) (mode : String) : Bool × AuthState :=
  let userKey := makeUserKey transport authorizedByUserId
  if (lookupKey s.trustedUsers userKey).isSome then
    let channelKey := makeChannelKey transport channelId
    let entry : AuthorizedChannel := ⟨transport, channelId, channelName, userKey, now, mode⟩
    (true, { s with authorizedChannels := setKey s.authorizedChannels channelKey entry })
  else
    (false, s)

/-- `revokeChannel`: fails when the channel is not authorized or the acting
user is not trusted. -/
def revokeChannel (s : AuthState) (transport channelId byUserId : String) :
    Bool × AuthState :=
  let channelKey := makeChannelKey transport channelId
  match lookupKey s.authorizedChannels channelKey with
  | none => (false, s)
  | some _ =>
      let userKey := makeUserKey transport byUserId
      if (lookupKey s.trustedUsers userKey).isSome then
        (true, { s with authorizedChannels := eraseKey s.authorizedChannels channelKey })
      else
        (false, s)

/-- `isChannelAuthorized`. -/
def isChannelAuthorized (s : AuthState) (transport channelId : String) : Bool :=
  (lookupKey s.authorizedChannels (makeChannelKey transport channelId)).isSome

/-- `getChannelAuth`. -/
def getChannelAuth (s : AuthState) (transport channelId : String) :
    Option AuthorizedChannel :=
  lookupKey s.authorizedChannels (makeChannelKey transport channelId)

/-- `str.toLowerCase()` over the character list (kernel-reducible stand-in
for `String.toLower`, which lowercases each character the same way). -/
def lowerStr (s : String) : String := String.mk (s.data.map Char.toLower)

/-- Leading and trailing whitespace removal over the character list
(`str.trim()`). -/
def trimChars (cs : List Char) : List Char :=
  ((cs.dropWhile Char.isWhitespace).reverse.dropWhile Char.isWhitespace).reverse

/-- `str.trim()` as a kernel-reducible function. -/
def trimStr (s : String) : String := String.mk (trimChars s.data)

/-- `str.split(/\s+/)` on a trimmed string: the maximal non-whitespace runs,
in order. `acc` holds the current run reversed. -/
def splitWsChars : List Char → List Char → List String
  | [], acc => if acc.isEmpty then [] else [String.mk acc.reverse]
  | c :: rest, acc =>
      if Char.isWhitespace c then
        if acc.isEmpty then splitWsChars rest []
        else String.mk acc.reverse :: splitWsChars rest []
      else splitWsChars rest (c :: acc)

/-- Whether `pre` is an initial segment of `hay` (char-list form of
`String.startsWith`). -/
def leadsChars : List Char → List Char → Bool
  | [], _ => true
  | _ :: _, [] => false
  | a :: as, b :: bs => a = b && leadsChars as bs

/-- `key.startsWith(s)` as a kernel-reducible function. -/
def strStartsWith (s t : String) : Bool := leadsChars t.data s.data

/-- `trackChannel`: record a seen channel under its lowercased name. -/
def trackChannel (s : AuthState) (transport chatId : String)
    (channelName : Option String) : AuthState :=
  match channelName with
  | none => s
  | some name =>
      { s with seenChannels :=
          setKey s.seenChannels (makeKey transport (lowerStr name)) ⟨chatId, name⟩ }

/-- Substring test (JS `String.includes`). -/
def strContains (hay needle : String) : Bool :=
  (List.range (hay.toList.length + 1)).any
    (fun i => decide ((hay.toList.drop i).take needle.toList.length = needle.toList))

/-- `findChannelByName`: exact lowercase key match first, then the first
cached entry for the transport whose name contains the query. -/
def findChannelByName (s : AuthState) (transport channelName : String) :
    Option SeenChannel :=
  match lookupKey s.seenChannels (makeKey transport (lowerStr channelName)) with
  | some ch => some ch
  | none =>
      (s.seenChannels.find? (fun kv =>
        strStartsWith kv.1 (transport ++ ":") &&
        strContains (lowerStr kv.2.channelName) (lowerStr channelName))).map Prod.snd

/-- The `reason` strings of `ChannelAuthResult`. -/
inductive DenyReason
  | notDmAuthed
  | channelNotAuthorized
  | notTrustedInChannel
  | noMention
deriving DecidableEq, Repr

/-- `ChannelAuthResult`: `{allowed: true}` or `{allowed: false, reason}`. -/
inductive ChannelAuthResult
  | allowed
  | denied (reason : DenyReason)
deriving DecidableEq, Repr

/-- `canRespondTo`: the permission decision for an incoming message. -/
def canRespondTo (s : AuthState) (msg : ExternalMessage) : ChannelAuthResult :=
  if msg.isDM then
    let chatAuthed := isAuthenticated s msg.transport msg.chatId
    let userTrusted := isUserTrusted s msg.transport msg.userId
    if chatAuthed || userTrusted then .allowed
    else .denied .notDmAuthed
  else
    match getChannelAuth s msg.transport msg.chatId with
    | none => .denied .channelNotAuthorized
    | some channelAuth =>
        let userTrusted := isUserTrusted s msg.transport msg.userId
        if channelAuth.mode = "all" then .allowed
        else if channelAuth.mode = "trusted-only" then
          if userTrusted then .allowed else .denied .notTrustedInChannel
        else
          if userTrusted || msg.mentionsBot then .allowed else .denied .noMention

/-- `isBlocked`: lazily deletes an expired lockout as a side effect. -/
def isBlocked (s : AuthState) (now : Int) (transport chatId : String) :
    Bool × AuthState :=
  let key := makeKey transport chatId
  match lookupKey s.blockedUsers key with
  | none => (false, s)
  | some blocked =>
      if now > blocked.untilMs then
        (false, { s with blockedUsers := eraseKey s.blockedUsers key })
      else
        (true, s)

/-- Ceiling division for a positive divisor (`Int` division is Euclidean,
i.e. floor for a positive divisor, so `-(-a / b)` is the ceiling); models
`Math.ceil((until - Date.now()) / 1000 / 60)` exactly for the integer
millisecond inputs involved. -/
def ceilDiv (a b : Int) : Int := -(-a / b)

/-- `getBlockTimeRemaining`: `Math.ceil((until - now) / 1000 / 60)` when a
lockout record exists, else 0; performs no deletion. -/
def getBlockTimeRemaining (s : AuthState) (now : Int) (transport chatId : String) : Int :=
  match lookupKey s.blockedUsers (makeKey transport chatId) with
  | none => 0
  | some blocked => ceilDiv (blocked.untilMs - now) 60000

/-- `hasPendingChallenge`: lazily deletes an expired challenge. -/
def hasPendingChallenge (s : AuthState) (now : Int) (transport chatId : String) :
    Bool × AuthState :=
  let key := makeKey transport chatId
  match lookupKey s.pendingChallenges key with
  | none => (false, s)
  | some challenge =>
      if now > challenge.expiresAt then
        (false, { s with pendingChallenges := eraseKey s.pendingChallenges key })
      else
        (true, s)

/-- `createChallenge`: store a fresh challenge (the generated random code is
a parameter) with a 2-minute expiry and zero attempts. -/
def createChallenge (s : AuthState) (now : Int) (transport chatId code : String) :
    AuthState :=
  let key := makeKey transport chatId
  let challenge : PendingChallenge := ⟨code, now + CHALLENGE_EXPIRY_MS, 0⟩
  { s with pendingChallenges := setKey s.pendingChallenges key challenge }

/-- The four outcomes of `verifyChallenge`. -/
inductive VerifyResult
  | success
  | expired
  | wrong
  | blocked
deriving DecidableEq, Repr

/-- `verifyChallenge`: the challenge-response state transition. The source
reads `Date.now()` twice (expiry check and lockout end); both reads are the
single logical instant `now`. -/
def verifyChallenge (s : AuthState) (now : Int)
    (transport chatId response userId username : String) (isDM : Bool) :
    VerifyResult × AuthState :=
  let key := makeKey transport chatId
  match lookupKey s.pendingChallenges key with
  | none => (.expired, s)
  | some challenge =>
      if now > challenge.expiresAt then
        (.expired, { s with pendingChallenges := eraseKey s.pendingChallenges key })
      else if response = challenge.key then
        let s1 := { s with
          pendingChallenges := eraseKey s.pendingChallenges key,
          authenticatedChats := addKey s.authenticatedChats key }
        if isDM then
          (.success, trustUser s1 now transport userId username chatId)
        else
          (.success, s1)
      else
        let attempts := challenge.attempts + 1
        let remaining := MAX_ATTEMPTS - attempts
        if remaining ≤ 0 then
          let lock : BlockedUser := ⟨now + BLOCK_DURATION_MS⟩
          let s1 := { s with
            pendingChallenges := eraseKey s.pendingChallenges key,
            blockedUsers := setKey s.blockedUsers key lock }
          (.blocked, s1)
        else
          let updated : PendingChallenge := { challenge with attempts := attempts }
          (.wrong, { s with pendingChallenges := setKey s.pendingChallenges key updated })

/-- `getAttemptsRemaining`. -/
def getAttemptsRemaining (s : AuthState) (transport chatId : String) : Int :=
  match lookupKey s.pendingChallenges (makeKey transport chatId) with
  | none => 0
  | some challenge => MAX_ATTEMPTS - challenge.attempts

/-- The per-entry loop of `loadFromStorage`: the source computes
`daysSinceActive = (now - lastActive) / (1000*60*60*24)` as a real number
and drops the entry when it is `> TRUST_EXPIRY_DAYS`; for integer
timestamps that comparison is exactly `now - lastActiveAt >
TRUST_EXPIRY_DAYS * DAY_MS`. A kept entry is loaded into the trusted-user
map and its DM chat is added to the legacy authenticated-chat set. -/
def loadEntries (now : Int) : List (String × TrustedUser) → AuthState → AuthState
  | [], s => s
  | (k, u) :: rest, s =>
      if now - u.lastActiveAt > TRUST_EXPIRY_DAYS * DAY_MS then
        loadEntries now rest s
      else
        loadEntries now rest { s with
          trustedUsers := setKey s.trustedUsers k u,
          authenticatedChats := addKey s.authenticatedChats (makeKey u.transport u.dmChatId) }

/-- `loadFromStorage`: read the persisted snapshot, discard it entirely on a
version mismatch, otherwise load the non-expired entries and re-save the
pruned ledger when at least one entry was dropped. -/
def loadFromStorage (s : AuthState) (now : Int) : AuthState :=
  match s.storage with
  | none => s
  | some parsed =>
      if parsed.version ≠ STORAGE_VERSION then s
      else
        let s1 := loadEntries now parsed.trustedUsers s
        let expiredCount := (parsed.trustedUsers.filter
          (fun kv => decide (now - kv.2.lastActiveAt > TRUST_EXPIRY_DAYS * DAY_MS))).length
        if expiredCount > 0 then saveToStorage s1 else s1

/-- State of the `TransportManager`: registered transport names, the FIFO
message queue, and whether a `waitForMessage` resolver is registered
(`waitingResolver !== null`). -/
structure RouterState where
  transports : List String
  messageQueue : List ExternalMessage
  waiting : Bool
  auth : AuthState
deriving DecidableEq, Repr

/-- How a classified message reached the consumer. -/
inductive DeliverResult
  | handedToWaiter
  | queued
deriving DecidableEq, Repr

/-- The delivery step shared by the DM and the group branch of
`handleMessage`: resolve the registered waiter (clearing the registration)
or append to the FIFO queue. -/
def deliver (s : RouterState) (msg : ExternalMessage) : DeliverResult × RouterState :=
  if s.waiting then
    (.handedToWaiter, { s with waiting := false })
  else
    (.queued, { s with messageQueue := s.messageQueue ++ [msg] })

/-- `waitForMessage` (without the cancellation wiring): return the oldest
queued message, or register the waiter (`none` = the promise keeps
pending). -/
def waitForMessage (s : RouterState) : Option ExternalMessage × RouterState :=
  match s.messageQueue with
  | m :: rest => (some m, { s with messageQueue := rest })
  | [] => (none, { s with waiting := true })

/-- `content.trim().toLowerCase().split(/\s+/)` — the source's whitespace
tokenization: lowercase the trimmed content and take its maximal
non-whitespace runs (splitting a trimmed string on whitespace runs yields
no empty tokens). -/
def tokenize (content : String) : List String :=
  splitWsChars ((trimChars content.data).map Char.toLower) []

/-- `ref.replace(/^#/, '')`: drop one leading `#`. -/
def dropLeadingHash (s : String) : String :=
  match s.data with
  | '#' :: rest => String.mk rest
  | _ => s

/-- `ref.replace(/^@/, '')`: drop one leading `@`. -/
def dropLeadingAt (s : String) : String :=
  match s.data with
  | '@' :: rest => String.mk rest
  | _ => s

/-- `handleAdminCommand`: interpret an admin command from a trusted user in
DM; returns whether the text was handled as a command, with the engine
state it leaves behind. Reply texts are side effects outside the state. -/
def handleAdminCommand (msg : ExternalMessage) (a : AuthState) (now : Int) :
    Bool × AuthState :=
  if !msg.isDM then (false, a)
  else
    match getTrustedUser a msg.transport msg.userId with
    | none => (false, a)
    | some _ =>
        let parts := tokenize msg.content
        let command := parts.headD ""
        if command = "enable" ∧ parts.length ≥ 2 then
          let channelRef := dropLeadingHash (parts.getD 1 "")
          let mode := parts.getD 2 "mentions"
          let foundChannel := findChannelByName a msg.transport channelRef
          let channelId := match foundChannel with
            | some f => f.channelId
            | none => channelRef
          let channelName := match foundChannel with
            | some f => f.channelName
            | none => channelRef
          (true, (authorizeChannel a now msg.transport channelId msg.userId
            (some channelName) mode).2)
        else if command = "disable" ∧ parts.length ≥ 2 then
          let channelRef := dropLeadingHash (String.intercalate " " (parts.drop 1))
          (true, (revokeChannel a msg.transport channelRef msg.userId).2)
        else if command = "channels" ∨ command = "list" then (true, a)
        else if command = "trusted" then (true, a)
        else if command = "revoke" ∧ parts.length ≥ 2 then
          let userRef := dropLeadingAt (parts.getD 1 "")
          let users := getAllTrustedUsers a (some msg.transport)
          match users.find? (fun u =>
              lowerStr u.username = lowerStr userRef ∨ u.userId = userRef) with
          | none => (true, a)
          | some targetUser =>
              if targetUser.userId = msg.userId then (true, a)
              else (true, (untrustUser a msg.transport targetUser.userId).2)
        else if command = "help" then (true, a)
        else (false, a)

/-- Which branch of `handleMessage` fired; each constructor other than the
delivery ones stands for the fixed reply (or deliberate silence) that
branch produces. -/
inductive RouteOutcome
  | unknownTransport
  | blockedNotice (mins : Int)
  | adminHandled
  | dmDelivered (d : DeliverResult)
  | groupDenied (reason : DenyReason)
  | groupDelivered (d : DeliverResult)
  | challengeIgnoredNonNumeric
  | challengeNearMissReminder
  | challengeIgnoredLength
  | verifyReplied (r : VerifyResult)
  | challengeCreated
deriving DecidableEq, Repr

/-- `/^\d+$/.test(input)`: non-empty and all ASCII digits. -/
def isAllDigits (s : String) : Bool :=
  s.length > 0 && s.toList.all Char.isDigit

/-- `handleMessage`: the router's per-message decision procedure.
`freshCode` is the random code `createChallenge` would generate when the
final branch fires. -/
def handleMessage (s : RouterState) (msg : ExternalMessage) (now : Int)
    (freshCode : String) : RouteOutcome × RouterState :=
  if !(s.transports.contains msg.transport) then (.unknownTransport, s)
  else
    let username := match msg.username with
      | some u => if u = "" then msg.chatId else u
      | none => msg.chatId
    let blockedCheck := isBlocked s.auth now msg.transport msg.chatId
    let s := { s with auth := blockedCheck.2 }
    if blockedCheck.1 then
      (.blockedNotice (getBlockTimeRemaining s.auth now msg.transport msg.chatId), s)
    else if msg.isDM && isAuthenticated s.auth msg.transport msg.chatId then
      let adminCheck := handleAdminCommand msg s.auth now
      let s := { s with auth := adminCheck.2 }
      if adminCheck.1 then (.adminHandled, s)
      else
        let delivered := deliver s msg
        (.dmDelivered delivered.1, delivered.2)
    else if !msg.isDM then
      let s := { s with auth := trackChannel s.auth msg.transport msg.chatId msg.channelName }
      match canRespondTo s.auth msg with
      | .denied reason => (.groupDenied reason, s)
      | .allowed =>
          let delivered := deliver s msg
          (.groupDelivered delivered.1, delivered.2)
    else
      let pendingCheck := hasPendingChallenge s.auth now msg.transport msg.chatId
      let s := { s with auth := pendingCheck.2 }
      if pendingCheck.1 then
        let input := trimStr msg.content
        if !isAllDigits input then (.challengeIgnoredNonNumeric, s)
        else if input.length = 5 ∨ input.length = 7 then (.challengeNearMissReminder, s)
        else if input.length ≠ 6 then (.challengeIgnoredLength, s)
        else
          let verified := verifyChallenge s.auth now msg.transport msg.chatId input
            msg.userId username msg.isDM
          (.verifyReplied verified.1, { s with auth := verified.2 })
      else
        (.challengeCreated,
          { s with auth := createChallenge s.auth now msg.transport msg.chatId freshCode })

/-- Fold `deliver` over a list of arriving messages (the state after several
messages were routed to delivery with no consumer interaction between). -/
def deliverSeq (s : RouterState) (msgs : List ExternalMessage) : RouterState :=
  msgs.foldl (fun st m => (deliver st m).2) s

/-- Repeatedly call `waitForMessage`, collecting the messages returned
(stopping early if a call would block). -/
def drainSeq (s : RouterState) : Nat → List ExternalMessage
  | 0 => []
  | n + 1 =>
      match s.messageQueue with
      | [] => []
      | m :: rest => m :: drainSeq { s with messageQueue := rest } n

/-- A trusted user on transport `tg` whose DM chat is `d1` (instance data
for the claim checks below). -/
def tgUser : TrustedUser := ⟨"tg", "u1", "alice", "d1", 0, 0⟩

/-- Channel `chan1` authorized by `tg:u1` in mode `all`. -/
def chanByU1 : AuthorizedChannel := ⟨"tg", "chan1", some "general", "tg:u1", 0, "all"⟩

/-- Channel `chan2` authorized by a different user `tg:u2`. -/
def chanByU2 : AuthorizedChannel := ⟨"tg", "chan2", some "random", "tg:u2", 0, "mentions"⟩

/-- C1 instance: one authorized channel in `mentions` mode, no trusted
users. -/
def c1State : AuthState :=
  { AuthState.empty with authorizedChannels := [("tg:chan1", ⟨"tg", "chan1", some "general", "tg:u9", 0, "mentions"⟩)] }

/-- C1 instance: a group message from an untrusted sender that mentions the
bot. -/
def c1Msg : ExternalMessage :=
  ⟨"m1", "chan1", "someone", some "bob", "hi @bot", 0, "tg", false, true, some "general"⟩

/-- C2 instance: a pending challenge with code `654321` expiring at t=120000. -/
def c2State : AuthState :=
  { AuthState.empty with pendingChallenges := [("tg:chat1", ⟨"654321", 120000, 0⟩)] }

/-- C2 instance: the message sent while locked out. -/
def c2Msg : ExternalMessage :=
  ⟨"m2", "chat1", "u1", some "alice", "654321", 0, "tg", true, false, none⟩

/-- C3 instance: a fresh pending challenge with code `222333`. -/
def c3State : AuthState :=
  { AuthState.empty with pendingChallenges := [("tg:chat3", ⟨"222333", 120000, 0⟩)] }

/-- C4 instance: a trusted user `tg:u1` plus one channel they authorized and
one authorized by someone else. -/
def c4State : AuthState :=
  { AuthState.empty with
      trustedUsers := [("tg:u1", tgUser)],
      authorizedChannels := [("tg:chan1", chanByU1), ("tg:chan2", chanByU2)],
      authenticatedChats := ["tg:d1"] }

/-- C6 instance: a persisted ledger with one user 31 days inactive and one
29 days inactive, relative to `now = 31 * DAY_MS`. -/
def c6Old : TrustedUser := ⟨"tg", "old", "olduser", "dOld", 0, 0⟩

/-- The 29-days-inactive user of the C6 instance. -/
def c6Fresh : TrustedUser := ⟨"tg", "new", "newuser", "dNew", 0, 2 * 86400000⟩

/-- The C6 persisted snapshot holding both users at version 1. -/
def c6Parsed : PersistedAuthData := ⟨[("tg:old", c6Old), ("tg:new", c6Fresh)], 1⟩

/-- The C6 startup state: empty memory, snapshot present in storage. -/
def c6State : AuthState := { AuthState.empty with storage := some c6Parsed }

/-- C7 instance: user `u1` is trusted on `tg` but the DM chat `chatX` is not
in the authenticated-chat set. -/
def c7Auth : AuthState := { AuthState.empty with trustedUsers := [("tg:u1", tgUser)] }

/-- The C7 router state over `c7Auth` with transport `tg` registered. -/
def c7Rs : RouterState := ⟨["tg"], [], false, c7Auth⟩

/-- The C7 incoming DM from the trusted user in the non-authenticated chat. -/
def c7Msg : ExternalMessage :=
  ⟨"m7", "chatX", "u1", some "alice", "hello there", 0, "tg", true, false, none⟩

/-- C7 amended-claim instance: the same DM chat marked authenticated. -/
def c7AuthedRs : RouterState :=
  ⟨["tg"], [], false, { c7Auth with authenticatedChats := ["tg:chatX"] }⟩

/-- C8 instance: an idle router with two buffered messages. -/
def c8MsgA : ExternalMessage :=
  ⟨"a", "d1", "u1", some "alice", "first", 0, "tg", true, false, none⟩

/-- Second C8 message. -/
def c8MsgB : ExternalMessage :=
  ⟨"b", "d1", "u1", some "alice", "second", 0, "tg", true, false, none⟩

/-- Third C8 message. -/
def c8MsgC : ExternalMessage :=
  ⟨"c", "d1", "u1", some "alice", "third", 0, "tg", true, false, none⟩

/-- The C8 router state: no waiter, `c8MsgA` already queued. -/
def c8Rs : RouterState := ⟨["tg"], [c8MsgA], false, AuthState.empty⟩

/-- C9 instance: a lockout record that ended at t=0 (stale at t=120000). -/
def c9State : AuthState := { AuthState.empty with blockedUsers := [("t:c", ⟨0⟩)] }

/-- C9 amended-claim instance: an active lockout ending at t=300000. -/
def c9Active : AuthState := { AuthState.empty with blockedUsers := [("t:c", ⟨300000⟩)] }

/-- C10 instance: trusted user `tg:u1` with their DM chat authenticated and
a channel they authorized. -/
def c10State : AuthState :=
  { AuthState.empty with
      trustedUsers := [("tg:u1", tgUser)],
      authenticatedChats := ["tg:d1"],
      authorizedChannels := [("tg:chan1", chanByU1)] }

/-- The C10 DM the removed user would send afterwards. -/
def c10Msg : ExternalMessage :=
  ⟨"m10", "d1", "u1", some "alice", "hello", 0, "tg", true, false, none⟩

/-- The engine state after three wrong responses to the C2 challenge
(submitted at t=10, 20, 30). -/
def c2S3 : AuthState :=
  (verifyChallenge
    (verifyChallenge
      (verifyChallenge c2State 10 "tg" "chat1" "000000" "u1" "alice" true).2
      20 "tg" "chat1" "111111" "u1" "alice" true).2
    30 "tg" "chat1" "222222" "u1" "alice" true).2

theorem lookupKey_eraseKey_self {α : Type} (m : List (String × α)) (q : String) :
    lookupKey (eraseKey m q) q = none := by
  induction m with
  | nil => rfl
  | cons p rest ih =>
      obtain ⟨k, v⟩ := p
      by_cases h : k = q <;> simp [eraseKey, lookupKey, h, ih]

theorem lookupKey_eraseKey_ne {α : Type} (m : List (String × α)) (q q' : String)
    (h : q ≠ q') : lookupKey (eraseKey m q) q' = lookupKey m q' := by
  induction m with
  | nil => rfl
  | cons p rest ih =>
      obtain ⟨k, v⟩ := p
      by_cases hk : k = q
      · subst hk
        simp [eraseKey, lookupKey, h, ih]
      · by_cases hk' : k = q' <;> simp [eraseKey, lookupKey, hk, hk', ih, Ne.symm h]

theorem lookupKey_setKey_self {α : Type} (m : List (String × α)) (q : String) (v : α) :
    lookupKey (setKey m q v) q = some v := by
  induction m with
  | nil => simp [setKey, lookupKey]
  | cons p rest ih =>
      obtain ⟨k, w⟩ := p
      by_cases h : k = q <;> simp [setKey, lookupKey, h, ih]

theorem lookupKey_setKey_ne {α : Type} (m : List (String × α)) (q q' : String) (v : α)
    (h : q ≠ q') : lookupKey (setKey m q v) q' = lookupKey m q' := by
  induction m with
  | nil => simp [setKey, lookupKey, h]
  | cons p rest ih =>
      obtain ⟨k, w⟩ := p
      by_cases hk : k = q
      · subst hk
        simp [setKey, lookupKey, h, ih]
      · by_cases hk' : k = q' <;> simp [setKey, lookupKey, hk, hk', ih, Ne.symm h]

theorem memKey_delKey_self (xs : List String) (q : String) :
    memKey (delKey xs q) q = false := by
  induction xs with
  | nil => rfl
  | cons x rest ih =>
      by_cases h : x = q <;> simp [delKey, memKey, h, ih]

theorem memKey_append_single (xs : List String) (q q' : String) :
    memKey (xs ++ [q]) q' = (memKey xs q' || decide (q = q')) := by
  induction xs with
  | nil => simp [memKey]
  | cons x rest ih =>
      by_cases hx : x = q' <;> simp [memKey, hx, ih]

theorem memKey_addKey_self (xs : List String) (q : String) :
    memKey (addKey xs q) q = true := by
  unfold addKey
  by_cases h : memKey xs q <;> simp [h, memKey_append_single]

theorem memKey_addKey_ne (xs : List String) (q q' : String) (h : q ≠ q') :
    memKey (addKey xs q) q' = memKey xs q' := by
  unfold addKey
  by_cases hm : memKey xs q <;> simp [hm, memKey_append_single, h]

theorem setKey_of_lookup_none {α : Type} (m : List (String × α)) (q : String) (v : α)
    (h : lookupKey m q = none) : setKey m q v = m ++ [(q, v)] := by
  induction m with
  | nil => rfl
  | cons p rest ih =>
      obtain ⟨k, w⟩ := p
      by_cases hk : k = q
      · simp [lookupKey, hk] at h
      · simp [lookupKey, hk] at h
        simp [setKey, hk, ih h]

theorem lookupKey_eq_none_of_not_mem {α : Type} (m : List (String × α)) (q : String)
    (h : q ∉ m.map Prod.fst) : lookupKey m q = none := by
  induction m with
  | nil => rfl
  | cons p rest ih =>
      obtain ⟨k, w⟩ := p
      have hk : k ≠ q := by
        intro e
        exact h (by simp [e])
      have hrest : q ∉ rest.map Prod.fst := by
        intro hm
        exact h (by simp [hm])
      simp [lookupKey, hk, ih hrest]

theorem lookupKey_filter {α : Type} (m : List (String × α)) (p : String × α → Bool)
    (q : String) (hnd : (m.map Prod.fst).Nodup) :
    lookupKey (m.filter p) q =
      match lookupKey m q with
      | some v => if p (q, v) then some v else none
      | none => none := by
  induction m with
  | nil => rfl
  | cons kv rest ih =>
      obtain ⟨k, v⟩ := kv
      rw [List.map_cons, List.nodup_cons] at hnd
      by_cases hk : k = q
      · subst hk
        have hnone : lookupKey rest k = none :=
          lookupKey_eq_none_of_not_mem rest k hnd.1
        by_cases hp : p (k, v)
        · simp [List.filter, hp, lookupKey]
        · rw [Bool.not_eq_true] at hp
          simp [List.filter, hp, lookupKey, ih hnd.2, hnone]
      · by_cases hp : p (k, v)
        · simp [List.filter, hp, lookupKey, hk, ih hnd.2]
        · rw [Bool.not_eq_true] at hp
          simp [List.filter, hp, lookupKey, hk, ih hnd.2]

/-- C1: `canRespondTo` decides exactly per the spec's truth table: a DM is
allowed iff the chat is marked authenticated or the sender is trusted on
the transport (else denied `not-dm-authed`); a group message with no
authorization record is denied `channel-not-authorized`; otherwise mode
`all` always allows, `trusted-only` allows iff the sender is trusted (else
`not-trusted-in-channel`), and `mentions` allows iff the sender is trusted
or the message mentions the bot (else `no-mention`). -/
theorem canRespondTo_truth_table (s : AuthState) (msg : ExternalMessage) :
    (msg.isDM = true →
      ((isAuthenticated s msg.transport msg.chatId = true ∨
          isUserTrusted s msg.transport msg.userId = true) →
        canRespondTo s msg = .allowed) ∧
      (isAuthenticated s msg.transport msg.chatId = false →
        isUserTrusted s msg.transport msg.userId = false →
        canRespondTo s msg = .denied .notDmAuthed)) ∧
    (msg.isDM = false →
      (getChannelAuth s msg.transport msg.chatId = none →
        canRespondTo s msg = .denied .channelNotAuthorized) ∧
      (∀ ch, getChannelAuth s msg.transport msg.chatId = some ch →
        (ch.mode = "all" → canRespondTo s msg = .allowed) ∧
        (ch.mode = "trusted-only" →
          (isUserTrusted s msg.transport msg.userId = true →
            canRespondTo s msg = .allowed) ∧
          (isUserTrusted s msg.transport msg.userId = false →
            canRespondTo s msg = .denied .notTrustedInChannel)) ∧
        (ch.mode = "mentions" →
          ((isUserTrusted s msg.transport msg.userId = true ∨ msg.mentionsBot = true) →
            canRespondTo s msg = .allowed) ∧
          (isUserTrusted s msg.transport msg.userId = false →
            msg.mentionsBot = false →
            canRespondTo s msg = .denied .noMention)))) := by
  constructor
  · intro hdm
    constructor
    · intro hor
      rcases hor with h | h <;> simp [canRespondTo, hdm, h]
    · intro h1 h2
      simp [canRespondTo, hdm, h1, h2]
  · intro hdm
    constructor
    · intro hnone
      simp [canRespondTo, hdm, hnone]
    · intro ch hch
      refine ⟨?_, ?_, ?_⟩
      · intro hmode
        simp [canRespondTo, hdm, hch, hmode]
      · intro hmode
        constructor
        · intro ht
          simp [canRespondTo, hdm, hch, hmode, ht]
        · intro ht
          simp [canRespondTo, hdm, hch, hmode, ht]
      · intro hmode
        constructor
        · intro hor
          rcases hor with h | h <;> simp [canRespondTo, hdm, hch, hmode, h]
        · intro h1 h2
          simp [canRespondTo, hdm, hch, hmode, h1, h2]

/-- C1 witness: in the concrete `c1State` (channel `tg:chan1` in `mentions`
mode, no trusted users) a mentioning group message from an untrusted
sender is allowed. -/
theorem canRespondTo_truth_table_witness : canRespondTo c1State c1Msg = .allowed :=
  ((((canRespondTo_truth_table c1State c1Msg).2 rfl).2
      ⟨"tg", "chan1", some "general", "tg:u9", 0, "mentions"⟩ rfl).2.2 rfl).1
    (Or.inr rfl)

/-- C2: from a pending challenge with zero attempts, three wrong responses
before expiry return `wrong`, `wrong`, `blocked`; the third deletes the
challenge and installs a 5-minute lockout, and any message whatsoever from
that `(transport, chatId)` within the lockout window draws the router's
blocked notice. -/
theorem three_wrong_codes_block (s0 s1 s2 s3 : AuthState)
    (tr ch code r1 r2 r3 uid un : String) (exp t1 t2 t3 t4 : Int) (d : Bool)
    (rs : RouterState) (msg : ExternalMessage) (fresh : String)
    (hch : lookupKey s0.pendingChallenges (makeKey tr ch) = some ⟨code, exp, 0⟩)
    (h1 : t1 ≤ exp) (h2 : t2 ≤ exp) (h3 : t3 ≤ exp)
    (hr1 : r1 ≠ code) (hr2 : r2 ≠ code) (hr3 : r3 ≠ code)
    (hs1 : s1 = (verifyChallenge s0 t1 tr ch r1 uid un d).2)
    (hs2 : s2 = (verifyChallenge s1 t2 tr ch r2 uid un d).2)
    (hs3 : s3 = (verifyChallenge s2 t3 tr ch r3 uid un d).2)
    (ht4 : t4 ≤ t3 + BLOCK_DURATION_MS)
    (hrs : rs.auth = s3)
    (hreg : rs.transports.contains msg.transport = true)
    (hmt : msg.transport = tr) (hmc : msg.chatId = ch) :
    (verifyChallenge s0 t1 tr ch r1 uid un d).1 = .wrong ∧
    (verifyChallenge s1 t2 tr ch r2 uid un d).1 = .wrong ∧
    (verifyChallenge s2 t3 tr ch r3 uid un d).1 = .blocked ∧
    lookupKey s3.pendingChallenges (makeKey tr ch) = none ∧
    lookupKey s3.blockedUsers (makeKey tr ch) = some ⟨t3 + BLOCK_DURATION_MS⟩ ∧
    (isBlocked s3 t4 tr ch).1 = true ∧
    (handleMessage rs msg t4 fresh).1 =
      .blockedNotice (ceilDiv (t3 + BLOCK_DURATION_MS - t4) 60000) := by
  have e1 : verifyChallenge s0 t1 tr ch r1 uid un d =
      (.wrong, { s0 with pendingChallenges := setKey s0.pendingChallenges (makeKey tr ch) (PendingChallenge.mk code exp (0 + 1)) }) := by
    simp [verifyChallenge, hch, hr1, show ¬ t1 > exp from by omega, MAX_ATTEMPTS]
  have hlook1 : lookupKey s1.pendingChallenges (makeKey tr ch) = some ⟨code, exp, 0 + 1⟩ := by
    rw [hs1, e1]
    exact lookupKey_setKey_self _ _ _
  have e2 : verifyChallenge s1 t2 tr ch r2 uid un d =
      (.wrong, { s1 with pendingChallenges := setKey s1.pendingChallenges (makeKey tr ch) (PendingChallenge.mk code exp (0 + 1 + 1)) }) := by
    simp [verifyChallenge, hlook1, hr2, show ¬ t2 > exp from by omega, MAX_ATTEMPTS]
  have hlook2 : lookupKey s2.pendingChallenges (makeKey tr ch) = some ⟨code, exp, 0 + 1 + 1⟩ := by
    rw [hs2, e2]
    exact lookupKey_setKey_self _ _ _
  have e3 : verifyChallenge s2 t3 tr ch r3 uid un d =
      (.blocked, { s2 with
        pendingChallenges := eraseKey s2.pendingChallenges (makeKey tr ch),
        blockedUsers := setKey s2.blockedUsers (makeKey tr ch) (BlockedUser.mk (t3 + BLOCK_DURATION_MS)) }) := by
    simp [verifyChallenge, hlook2, hr3, show ¬ t3 > exp from by omega, MAX_ATTEMPTS]
  have hnochal : lookupKey s3.pendingChallenges (makeKey tr ch) = none := by
    rw [hs3, e3]
    exact lookupKey_eraseKey_self _ _
  have hlock : lookupKey s3.blockedUsers (makeKey tr ch) = some ⟨t3 + BLOCK_DURATION_MS⟩ := by
    rw [hs3, e3]
    exact lookupKey_setKey_self _ _ _
  have hblocked : isBlocked s3 t4 tr ch = (true, s3) := by
    simp [isBlocked, hlock, show ¬ t4 > t3 + BLOCK_DURATION_MS from by omega]
  have hmins : getBlockTimeRemaining s3 t4 tr ch =
      ceilDiv (t3 + BLOCK_DURATION_MS - t4) 60000 := by
    simp [getBlockTimeRemaining, hlock]
  refine ⟨by rw [e1], by rw [e2], by rw [e3], hnochal, hlock, by rw [hblocked], ?_⟩
  have hb' : isBlocked rs.auth t4 msg.transport msg.chatId = (true, rs.auth) := by
    rw [hrs, hmt, hmc, hblocked]
  have hreg' : tr ∈ rs.transports := by
    rw [hmt] at hreg
    simpa using hreg
  simp [handleMessage, hreg, hb']
  rw [hrs, hmt, hmc, hmins]
  simp [hreg']

/-- C2 witness: the concrete three-wrong-codes run on `c2State` followed by
a message at t=1000 inside the lockout (remaining minutes ceil to 5). -/
theorem three_wrong_codes_block_witness :
    (verifyChallenge c2State 10 "tg" "chat1" "000000" "u1" "alice" true).1 = .wrong ∧
    (handleMessage ⟨["tg"], [], false, c2S3⟩ c2Msg 1000 "999999").1 = .blockedNotice 5 := by
  have h := three_wrong_codes_block c2State
    (verifyChallenge c2State 10 "tg" "chat1" "000000" "u1" "alice" true).2
    (verifyChallenge (verifyChallenge c2State 10 "tg" "chat1" "000000" "u1" "alice" true).2
      20 "tg" "chat1" "111111" "u1" "alice" true).2
    c2S3 "tg" "chat1" "654321" "000000" "111111" "222222" "u1" "alice"
    120000 10 20 30 1000 true ⟨["tg"], [], false, c2S3⟩ c2Msg "999999"
    rfl (by norm_num) (by norm_num) (by norm_num)
    (by decide) (by decide) (by decide)
    rfl rfl rfl (by norm_num [BLOCK_DURATION_MS]) rfl (by decide) rfl rfl
  refine ⟨h.1, ?_⟩
  rw [h.2.2.2.2.2.2]
  norm_num [ceilDiv, BLOCK_DURATION_MS]

/-- C3: submitting the correct code before expiry yields `success` exactly
once — the challenge is deleted as a side effect — and any resubmission to
that `(transport, chatId)` afterwards yields `expired`; likewise
`verifyChallenge` with no pending challenge, or once `now` exceeds
`expiresAt`, yields `expired` (deleting the stale challenge). -/
theorem correct_code_success_once (s0 : AuthState)
    (tr ch code uid un r2 uid2 un2 : String) (exp a0 t1 t2 : Int) (d2 : Bool)
    (hch : lookupKey s0.pendingChallenges (makeKey tr ch) = some ⟨code, exp, a0⟩)
    (h1 : t1 ≤ exp) :
    (verifyChallenge s0 t1 tr ch code uid un true).1 = .success ∧
    lookupKey (verifyChallenge s0 t1 tr ch code uid un true).2.pendingChallenges
      (makeKey tr ch) = none ∧
    (verifyChallenge (verifyChallenge s0 t1 tr ch code uid un true).2
      t2 tr ch r2 uid2 un2 d2).1 = .expired ∧
    (∀ (s' : AuthState) (t : Int) (r u n : String) (dm : Bool),
      lookupKey s'.pendingChallenges (makeKey tr ch) = none →
      (verifyChallenge s' t tr ch r u n dm).1 = .expired) ∧
    (∀ (s' : AuthState) (c' : PendingChallenge) (t : Int) (r u n : String) (dm : Bool),
      lookupKey s'.pendingChallenges (makeKey tr ch) = some c' →
      t > c'.expiresAt →
      (verifyChallenge s' t tr ch r u n dm).1 = .expired ∧
      lookupKey (verifyChallenge s' t tr ch r u n dm).2.pendingChallenges
        (makeKey tr ch) = none) := by
  have hnone : ∀ (s' : AuthState) (t : Int) (r u n : String) (dm : Bool),
      lookupKey s'.pendingChallenges (makeKey tr ch) = none →
      (verifyChallenge s' t tr ch r u n dm).1 = .expired := by
    intro s' t r u n dm hlk
    simp [verifyChallenge, hlk]
  have e1 : verifyChallenge s0 t1 tr ch code uid un true =
      (.success, trustUser { s0 with pendingChallenges := eraseKey s0.pendingChallenges (makeKey tr ch), authenticatedChats := addKey s0.authenticatedChats (makeKey tr ch) } t1 tr uid un ch) := by
    simp [verifyChallenge, hch, show ¬ t1 > exp from by omega]
  have hdel : lookupKey (verifyChallenge s0 t1 tr ch code uid un true).2.pendingChallenges
      (makeKey tr ch) = none := by
    rw [e1]
    simp [trustUser, saveToStorage]
    exact lookupKey_eraseKey_self _ _
  refine ⟨by rw [e1], hdel, hnone _ _ _ _ _ _ hdel, hnone, ?_⟩
  intro s' c' t r u n dm hlk hexp
  constructor
  · simp [verifyChallenge, hlk, hexp]
  · simp [verifyChallenge, hlk, hexp]
    exact lookupKey_eraseKey_self _ _

/-- C3 witness: on `c3State`, the correct code at t=50 succeeds; replaying
the very same code at t=60 yields `expired`. -/
theorem correct_code_success_once_witness :
    (verifyChallenge c3State 50 "tg" "chat3" "222333" "u1" "alice" true).1 = .success ∧
    (verifyChallenge (verifyChallenge c3State 50 "tg" "chat3" "222333" "u1" "alice" true).2
      60 "tg" "chat3" "222333" "u1" "alice" true).1 = .expired := by
  have h := correct_code_success_once c3State "tg" "chat3" "222333" "u1" "alice"
    "222333" "u1" "alice" 120000 0 50 60 true rfl (by norm_num)
  exact ⟨h.1, h.2.2.1⟩

/-- C4: when a trusted user exists, `untrustUser` removes their entry,
deletes exactly the authorized channels whose `authorizedBy` is their key
(all other channels keep their records), flushes the ledger snapshot to
storage, and returns `true`; with no such trusted user it returns `false`
and leaves the state unchanged. -/
theorem untrustUser_spec (s : AuthState) (tr uid : String)
    (hnd : (s.authorizedChannels.map Prod.fst).Nodup) :
    (∀ u, lookupKey s.trustedUsers (makeUserKey tr uid) = some u →
      (untrustUser s tr uid).1 = true ∧
      lookupKey (untrustUser s tr uid).2.trustedUsers (makeUserKey tr uid) = none ∧
      (∀ k, lookupKey (untrustUser s tr uid).2.authorizedChannels k =
        match lookupKey s.authorizedChannels k with
        | some c => if c.authorizedBy = makeUserKey tr uid then none else some c
        | none => none) ∧
      (untrustUser s tr uid).2.storage =
        some ⟨(untrustUser s tr uid).2.trustedUsers, STORAGE_VERSION⟩) ∧
    (lookupKey s.trustedUsers (makeUserKey tr uid) = none →
      untrustUser s tr uid = (false, s)) := by
  constructor
  · intro u hu
    refine ⟨?_, ?_, ?_, ?_⟩
    · simp [untrustUser, hu]
    · simp [untrustUser, hu, saveToStorage]
      exact lookupKey_eraseKey_self _ _
    · intro k
      have hf := lookupKey_filter s.authorizedChannels
        (fun p => decide (¬ p.2.authorizedBy = makeUserKey tr uid)) k hnd
      simp only [untrustUser, hu, saveToStorage]
      rw [hf]
      cases hlk : lookupKey s.authorizedChannels k with
      | none => simp
      | some c =>
          by_cases hc : c.authorizedBy = makeUserKey tr uid <;> simp [hc]
    · simp [untrustUser, hu, saveToStorage]
  · intro h
    simp [untrustUser, h]

/-- C4 witness: untrusting `tg:u1` in `c4State` returns `true`, removes the
channel they authorized, and keeps the channel authorized by `tg:u2`. -/
theorem untrustUser_spec_witness :
    (untrustUser c4State "tg" "u1").1 = true ∧
    lookupKey (untrustUser c4State "tg" "u1").2.authorizedChannels "tg:chan1" = none ∧
    lookupKey (untrustUser c4State "tg" "u1").2.authorizedChannels "tg:chan2" = some chanByU2 := by
  have h := (untrustUser_spec c4State "tg" "u1" (by decide)).1 tgUser (by decide)
  refine ⟨h.1, ?_, ?_⟩
  · rw [h.2.2.1 "tg:chan1"]
    decide
  · rw [h.2.2.1 "tg:chan2"]
    decide

theorem colon_split_unique {xs ys us vs : List Char}
    (hx : ':' ∉ xs) (hu : ':' ∉ us)
    (h : xs ++ ':' :: ys = us ++ ':' :: vs) : xs = us ∧ ys = vs := by
  induction xs generalizing us with
  | nil =>
      cases us with
      | nil => simpa using h
      | cons a as =>
          simp at h
          exact absurd (h.1 ▸ List.mem_cons_self a as) hu
  | cons x xs' ih =>
      cases us with
      | nil =>
          simp at h
          exact absurd (h.1 ▸ List.mem_cons_self x xs') hx
      | cons a as =>
          simp at h
          have hx' : ':' ∉ xs' := fun hm => hx (List.mem_cons_of_mem _ hm)
          have hu' : ':' ∉ as := fun hm => hu (List.mem_cons_of_mem _ hm)
          obtain ⟨h1, h2⟩ := ih hx' hu' h.2
          exact ⟨by rw [h.1, h1], h2⟩

theorem makeKey_data (t i : String) :
    (makeKey t i).data = t.data ++ ':' :: i.data := by
  simp [makeKey, String.data_append]

/-- C5 counterexample: key construction is bare string interpolation with
`:`, so the two distinct `(transport, id)` pairs `("a", "b:c")` and
`("a:b", "c")` map to the same internal key `"a:b:c"`, refuting the
claim's general no-collision statement. -/
theorem makeKey_collision_counterexample :
    (("a", "b:c") : String × String) ≠ (("a:b", "c") : String × String) ∧
    makeKey "a" "b:c" = makeKey "a:b" "c" := by
  constructor
  · decide
  · rfl

/-- C5 (amended): trust is isolated per transport — trusting `(A, userId)`
never changes `isUserTrusted (B, userId)` for a different transport `B`,
for arbitrary transport strings — and the internal keys of two distinct
`(transport, id)` pairs never coincide provided the transport names
contain no `':'` separator character (as is the case for the repository's
transports; with a `':'` inside a transport name distinct pairs can
collide, see the counterexample). -/
theorem trust_isolation_amended :
    (∀ (s : AuthState) (now : Int) (A B uid un dm : String), A ≠ B →
      isUserTrusted (trustUser s now A uid un dm) B uid = isUserTrusted s B uid) ∧
    (∀ t1 i1 t2 i2 : String, ':' ∉ t1.toList → ':' ∉ t2.toList →
      makeKey t1 i1 = makeKey t2 i2 → t1 = t2 ∧ i1 = i2) := by
  constructor
  · intro s now A B uid un dm hAB
    have hkey : makeUserKey A uid ≠ makeUserKey B uid := by
      intro he
      apply hAB
      have hd : (makeUserKey A uid).data = (makeUserKey B uid).data := by rw [he]
      rw [show makeUserKey A uid = makeKey A uid from rfl,
          show makeUserKey B uid = makeKey B uid from rfl,
          makeKey_data, makeKey_data] at hd
      exact String.ext (List.append_cancel_right hd)
    simp [isUserTrusted, trustUser, saveToStorage, lookupKey_setKey_ne _ _ _ _ hkey]
  · intro t1 i1 t2 i2 h1 h2 heq
    have hd : (makeKey t1 i1).data = (makeKey t2 i2).data := by rw [heq]
    rw [makeKey_data, makeKey_data] at hd
    obtain ⟨ha, hb⟩ := colon_split_unique h1 h2 hd
    exact ⟨String.ext ha, String.ext hb⟩

/-- C5 witness: trusting `77` on `slack` leaves the same id untrusted on
`telegram`, and colon-free keys decompose uniquely. -/
theorem trust_isolation_amended_witness :
    isUserTrusted (trustUser AuthState.empty 0 "slack" "77" "bob" "d9") "telegram" "77" =
      isUserTrusted AuthState.empty "telegram" "77" ∧
    (("slack" : String) = "slack" ∧ ("77" : String) = "77") :=
  ⟨trust_isolation_amended.1 AuthState.empty 0 "slack" "telegram" "77" "bob" "d9" (by decide),
   trust_isolation_amended.2 "slack" "77" "slack" "77" (by decide) (by decide) rfl⟩

theorem loadEntries_storage (now : Int) (entries : List (String × TrustedUser))
    (s : AuthState) : (loadEntries now entries s).storage = s.storage := by
  induction entries generalizing s with
  | nil => rfl
  | cons kv rest ih =>
      obtain ⟨k, u⟩ := kv
      by_cases h : now - u.lastActiveAt > TRUST_EXPIRY_DAYS * DAY_MS <;>
        simp [loadEntries, h, ih]

theorem loadEntries_trustedUsers (now : Int) (entries : List (String × TrustedUser))
    (s : AuthState) (hnd : (entries.map Prod.fst).Nodup)
    (hfresh : ∀ kv ∈ entries, lookupKey s.trustedUsers kv.1 = none) :
    (loadEntries now entries s).trustedUsers =
      s.trustedUsers ++ entries.filter
        (fun kv => !decide (now - kv.2.lastActiveAt > TRUST_EXPIRY_DAYS * DAY_MS)) := by
  induction entries generalizing s with
  | nil => simp [loadEntries]
  | cons kv rest ih =>
      obtain ⟨k, u⟩ := kv
      rw [List.map_cons, List.nodup_cons] at hnd
      by_cases h : now - u.lastActiveAt > TRUST_EXPIRY_DAYS * DAY_MS
      · simp only [loadEntries, if_pos h]
        rw [ih _ hnd.2 (fun kv hm => hfresh kv (List.mem_cons_of_mem _ hm))]
        simp [List.filter, h]
      · have hset : setKey s.trustedUsers k u = s.trustedUsers ++ [(k, u)] :=
          setKey_of_lookup_none _ _ _ (hfresh (k, u) (List.mem_cons_self _ _))
        have hfresh' : ∀ kv ∈ rest, lookupKey (setKey s.trustedUsers k u) kv.1 = none := by
          intro kv hm
          have hne : k ≠ kv.1 := by
            intro he
            apply hnd.1
            rw [he]
            exact List.mem_map.mpr ⟨kv, hm, rfl⟩
          rw [lookupKey_setKey_ne _ _ _ _ hne]
          exact hfresh kv (List.mem_cons_of_mem _ hm)
        simp only [loadEntries, if_neg h]
        rw [ih _ hnd.2 hfresh']
        simp [List.filter, h, hset]

/-- C6: on startup load, a stored entry is dropped iff its inactivity
(`now - lastActiveAt`) exceeds 30 days, otherwise loaded; the pruned
ledger is re-saved exactly when at least one entry was dropped; and a
version mismatch discards the whole snapshot, loading nothing. -/
theorem loadFromStorage_spec (s : AuthState) (now : Int) (parsed : PersistedAuthData)
    (hs : s.storage = some parsed)
    (hempty : s.trustedUsers = [])
    (hnd : (parsed.trustedUsers.map Prod.fst).Nodup) :
    (parsed.version ≠ STORAGE_VERSION → loadFromStorage s now = s) ∧
    (parsed.version = STORAGE_VERSION →
      (loadFromStorage s now).trustedUsers =
        parsed.trustedUsers.filter
          (fun kv => !decide (now - kv.2.lastActiveAt > TRUST_EXPIRY_DAYS * DAY_MS)) ∧
      ((∃ kv ∈ parsed.trustedUsers, now - kv.2.lastActiveAt > TRUST_EXPIRY_DAYS * DAY_MS) →
        (loadFromStorage s now).storage =
          some ⟨(loadFromStorage s now).trustedUsers, STORAGE_VERSION⟩) ∧
      ((∀ kv ∈ parsed.trustedUsers, ¬ now - kv.2.lastActiveAt > TRUST_EXPIRY_DAYS * DAY_MS) →
        (loadFromStorage s now).storage = s.storage)) := by
  constructor
  · intro hver
    simp [loadFromStorage, hs, hver]
  · intro hver
    have hfresh : ∀ kv ∈ parsed.trustedUsers, lookupKey s.trustedUsers kv.1 = none := by
      intro kv hm
      rw [hempty]
      rfl
    have hload := loadEntries_trustedUsers now parsed.trustedUsers s hnd hfresh
    rw [hempty] at hload
    simp only [List.nil_append] at hload
    have hcount : (0 < (parsed.trustedUsers.filter
        (fun kv => decide (now - kv.2.lastActiveAt > TRUST_EXPIRY_DAYS * DAY_MS))).length) ↔
        ∃ kv ∈ parsed.trustedUsers, now - kv.2.lastActiveAt > TRUST_EXPIRY_DAYS * DAY_MS := by
      rw [List.length_pos]
      constructor
      · intro hne
        obtain ⟨kv, hkv⟩ := List.exists_mem_of_ne_nil _ hne
        rw [List.mem_filter] at hkv
        exact ⟨kv, hkv.1, by simpa using hkv.2⟩
      · rintro ⟨kv, hm, hdrop⟩
        intro hnil
        rw [List.filter_eq_nil_iff] at hnil
        have hno := hnil kv hm
        simp at hno
        omega
    by_cases hdrop : ∃ kv ∈ parsed.trustedUsers,
        now - kv.2.lastActiveAt > TRUST_EXPIRY_DAYS * DAY_MS
    · have hpos := hcount.2 hdrop
      have hres : loadFromStorage s now = saveToStorage (loadEntries now parsed.trustedUsers s) := by
        simp [loadFromStorage, hs, hver, hpos]
      refine ⟨?_, fun _ => ?_, fun hall => ?_⟩
      · rw [hres]
        simpa [saveToStorage] using hload
      · rw [hres]
        simp [saveToStorage]
      · exact absurd hdrop (by push_neg; simpa using hall)
    · have hzero : ¬ 0 < (parsed.trustedUsers.filter
          (fun kv => decide (now - kv.2.lastActiveAt > TRUST_EXPIRY_DAYS * DAY_MS))).length := by
        rw [hcount]
        exact hdrop
      have hlen0 : (parsed.trustedUsers.filter
          (fun kv => decide (now - kv.2.lastActiveAt > TRUST_EXPIRY_DAYS * DAY_MS))).length = 0 := by
        omega
      have hres : loadFromStorage s now = loadEntries now parsed.trustedUsers s := by
        simp [loadFromStorage, hs, hver, hlen0]
      refine ⟨?_, fun hex => absurd hex hdrop, fun _ => ?_⟩
      · rw [hres, hload]
      · rw [hres, loadEntries_storage]

/-- C6 witness: loading `c6Parsed` (one user 31 days inactive, one 29 days
inactive) at `now = 31 * DAY_MS` keeps only the 29-day user and re-saves
the pruned snapshot. -/
theorem loadFromStorage_spec_witness :
    (loadFromStorage c6State (31 * DAY_MS)).trustedUsers = [("tg:new", c6Fresh)] ∧
    (loadFromStorage c6State (31 * DAY_MS)).storage =
      some ⟨[("tg:new", c6Fresh)], STORAGE_VERSION⟩ := by
  have h := (loadFromStorage_spec c6State (31 * DAY_MS) c6Parsed rfl rfl (by decide)).2 rfl
  have h1 : (loadFromStorage c6State (31 * DAY_MS)).trustedUsers = [("tg:new", c6Fresh)] := by
    rw [h.1]
    decide
  have h2 := h.2.1 ⟨("tg:old", c6Old), by decide, by decide⟩
  rw [h1] at h2
  exact ⟨h1, h2⟩

/-- C7 counterexample: in `c7Rs` the DM sender `u1` is trusted on `tg` and
no lockout applies, yet because chat `chatX` is not marked authenticated
the router starts a new challenge — it neither attempts admin-command
interpretation nor delivers the message, contradicting the claim. -/
theorem router_trusted_dm_counterexample :
    isUserTrusted c7Rs.auth "tg" "u1" = true ∧
    (isBlocked c7Rs.auth 1000 "tg" "chatX").1 = false ∧
    isAuthenticated c7Rs.auth "tg" "chatX" = false ∧
    (handleMessage c7Rs c7Msg 1000 "123456").1 = .challengeCreated ∧
    RouteOutcome.challengeCreated ≠ .adminHandled ∧
    (∀ d, RouteOutcome.challengeCreated ≠ .dmDelivered d) := by
  refine ⟨by decide, by decide, by decide, by decide, by decide, fun d => by cases d <;> decide⟩

/-- C7 (amended): the router's DM gate is the chat-authentication flag, not
sender trust: for a DM not blocked by a lockout, when the chat is marked
authenticated the router first attempts admin-command interpretation and
otherwise hands the message to the consumer (waiter first, else queue);
when the chat is not marked authenticated — even if the sender is trusted
— the router never admin-handles or delivers the DM, and with no pending
challenge it creates a new challenge instead. -/
theorem router_authed_dm_amended (rs : RouterState) (msg : ExternalMessage)
    (now : Int) (fresh : String)
    (ht : rs.transports.contains msg.transport = true)
    (hdm : msg.isDM = true)
    (hnb : (isBlocked rs.auth now msg.transport msg.chatId).1 = false) :
    (isAuthenticated (isBlocked rs.auth now msg.transport msg.chatId).2
        msg.transport msg.chatId = true →
      ((handleAdminCommand msg (isBlocked rs.auth now msg.transport msg.chatId).2 now).1 = true →
        (handleMessage rs msg now fresh).1 = .adminHandled) ∧
      ((handleAdminCommand msg (isBlocked rs.auth now msg.transport msg.chatId).2 now).1 = false →
        (rs.waiting = true → (handleMessage rs msg now fresh).1 = .dmDelivered .handedToWaiter) ∧
        (rs.waiting = false → (handleMessage rs msg now fresh).1 = .dmDelivered .queued))) ∧
    (isAuthenticated (isBlocked rs.auth now msg.transport msg.chatId).2
        msg.transport msg.chatId = false →
      ((handleMessage rs msg now fresh).1 ≠ .adminHandled ∧
        ∀ d, (handleMessage rs msg now fresh).1 ≠ .dmDelivered d) ∧
      ((hasPendingChallenge (isBlocked rs.auth now msg.transport msg.chatId).2
          now msg.transport msg.chatId).1 = false →
        (handleMessage rs msg now fresh).1 = .challengeCreated)) := by
  have htm : msg.transport ∈ rs.transports := by simpa using ht
  constructor
  · intro hauth
    constructor
    · intro hcmd
      simp [handleMessage, htm, hnb, hdm, hauth, hcmd]
    · intro hcmd
      constructor
      · intro hw
        simp [handleMessage, htm, hnb, hdm, hauth, hcmd, deliver, hw]
      · intro hw
        simp [handleMessage, htm, hnb, hdm, hauth, hcmd, deliver, hw]
  · intro hauth
    constructor
    · by_cases hpc : (hasPendingChallenge (isBlocked rs.auth now msg.transport msg.chatId).2
          now msg.transport msg.chatId).1 = true
      · by_cases h1 : isAllDigits (trimStr msg.content) = false
        · refine ⟨?_, fun d => ?_⟩ <;>
            simp [handleMessage, htm, hnb, hdm, hauth, hpc, h1]
        · by_cases h2 : (trimStr msg.content).length = 5 ∨ (trimStr msg.content).length = 7
          · refine ⟨?_, fun d => ?_⟩ <;>
              simp [handleMessage, htm, hnb, hdm, hauth, hpc, h1, h2]
          · by_cases h3 : (trimStr msg.content).length = 6
            · refine ⟨?_, fun d => ?_⟩ <;>
                simp [handleMessage, htm, hnb, hdm, hauth, hpc, h1, h2, h3]
            · refine ⟨?_, fun d => ?_⟩ <;>
                simp [handleMessage, htm, hnb, hdm, hauth, hpc, h1, h2, h3]
      · refine ⟨?_, fun d => ?_⟩ <;>
          simp [handleMessage, htm, hnb, hdm, hauth, hpc]
    · intro hpc
      simp [handleMessage, htm, hnb, hdm, hauth, hpc]

/-- C7 witness: with the chat marked authenticated (`c7AuthedRs`) the same
non-command DM is delivered to the consumer queue. -/
theorem router_authed_dm_amended_witness :
    (handleMessage c7AuthedRs c7Msg 1000 "123456").1 = .dmDelivered .queued := by
  have h := router_authed_dm_amended c7AuthedRs c7Msg 1000 "123456" (by decide) rfl (by decide)
  exact ((h.1 (by decide)).2 (by decide)).2 rfl

theorem deliverSeq_queue (msgs : List ExternalMessage) :
    ∀ s : RouterState, s.waiting = false →
      (deliverSeq s msgs).messageQueue = s.messageQueue ++ msgs ∧
      (deliverSeq s msgs).waiting = false := by
  induction msgs with
  | nil => intro s hw; simp [deliverSeq, hw]
  | cons m rest ih =>
      intro s hw
      have hstep : (deliver s m).2 = { s with messageQueue := s.messageQueue ++ [m] } := by
        simp [deliver, hw]
      have := ih { s with messageQueue := s.messageQueue ++ [m] } hw
      simp [deliverSeq, List.foldl_cons, hstep] at this ⊢
      exact this

theorem drainSeq_eq (q : List ExternalMessage) :
    ∀ s : RouterState, s.messageQueue = q → drainSeq s q.length = q := by
  induction q with
  | nil => intro s hs; simp [drainSeq]
  | cons m rest ih =>
      intro s hs
      simp only [List.length_cons, drainSeq, hs]
      rw [ih { s with messageQueue := rest } rfl]

/-- C8: delivery is a single-waiter FIFO rendezvous — with a waiter
registered a classified message is handed over immediately and the
registration cleared, with none it is appended to the queue;
`waitForMessage` returns the oldest queued message first; and delivering a
run of messages to an idle consumer buffers them in arrival order, after
which repeated `waitForMessage` calls drain exactly that order. -/
theorem delivery_rendezvous (s : RouterState) (msg : ExternalMessage) :
    (s.waiting = true → deliver s msg = (.handedToWaiter, { s with waiting := false })) ∧
    (s.waiting = false →
      deliver s msg = (.queued, { s with messageQueue := s.messageQueue ++ [msg] })) ∧
    (∀ m rest, s.messageQueue = m :: rest →
      waitForMessage s = (some m, { s with messageQueue := rest })) ∧
    (s.waiting = false → ∀ msgs : List ExternalMessage,
      (deliverSeq s msgs).messageQueue = s.messageQueue ++ msgs ∧
      drainSeq (deliverSeq s msgs) (s.messageQueue ++ msgs).length =
        s.messageQueue ++ msgs) := by
  refine ⟨?_, ?_, ?_, ?_⟩
  · intro hw
    simp [deliver, hw]
  · intro hw
    simp [deliver, hw]
  · intro m rest hq
    simp [waitForMessage, hq]
  · intro hw msgs
    obtain ⟨hq, _⟩ := deliverSeq_queue msgs s hw
    exact ⟨hq, drainSeq_eq _ _ hq⟩

/-- C8 witness: on the idle router `c8Rs` (queue `[c8MsgA]`), delivering
`c8MsgB` queues it behind `c8MsgA`, and after also delivering `c8MsgC`
three `waitForMessage` calls return A, B, C in arrival order. -/
theorem delivery_rendezvous_witness :
    deliver c8Rs c8MsgB = (.queued, { c8Rs with messageQueue := [c8MsgA, c8MsgB] }) ∧
    drainSeq (deliverSeq c8Rs [c8MsgB, c8MsgC]) 3 = [c8MsgA, c8MsgB, c8MsgC] := by
  have h := delivery_rendezvous c8Rs c8MsgB
  constructor
  · have h2 := h.2.1 rfl
    simpa [c8Rs] using h2
  · have h4 := (h.2.2.2 rfl [c8MsgB, c8MsgC]).2
    simpa [c8Rs] using h4

/-- C9 counterexample: on `c9State` (a lockout that ended at t=0) the query
`getBlockTimeRemaining` at t=120000 returns `-2` — not `0` — and the
function never deletes the stale record (it does not touch the map at
all), refuting the claim that both functions lazily expire and report
zero. -/
theorem getBlockTimeRemaining_counterexample :
    lookupKey c9State.blockedUsers (makeKey "t" "c") = some ⟨0⟩ ∧
    getBlockTimeRemaining c9State 120000 "t" "c" = -2 ∧
    (-2 : Int) ≠ 0 := by
  refine ⟨by decide, by decide, by decide⟩

/-- C9 (amended): `isBlocked` lazily expires — a lockout whose `until` is in
the past is deleted by the check and reported not blocked, an active one
reports blocked — while `getBlockTimeRemaining` reports 0 when no record
exists and otherwise `ceil((until - now) / 60000)` whole minutes without
deleting anything: positive while the lockout is active, but possibly ≤ 0
(negative once `now` is a full minute past `until`) for a stale record it
leaves in place. -/
theorem lockout_lazy_expiry_amended (s : AuthState) (now : Int) (tr ch : String) :
    (lookupKey s.blockedUsers (makeKey tr ch) = none →
      isBlocked s now tr ch = (false, s) ∧ getBlockTimeRemaining s now tr ch = 0) ∧
    (∀ b, lookupKey s.blockedUsers (makeKey tr ch) = some b →
      (now > b.untilMs →
        isBlocked s now tr ch =
          (false, { s with blockedUsers := eraseKey s.blockedUsers (makeKey tr ch) }) ∧
        lookupKey (isBlocked s now tr ch).2.blockedUsers (makeKey tr ch) = none) ∧
      (¬ now > b.untilMs → isBlocked s now tr ch = (true, s)) ∧
      getBlockTimeRemaining s now tr ch = ceilDiv (b.untilMs - now) 60000 ∧
      (now < b.untilMs → 0 < getBlockTimeRemaining s now tr ch)) := by
  constructor
  · intro hnone
    exact ⟨by simp [isBlocked, hnone], by simp [getBlockTimeRemaining, hnone]⟩
  · intro b hsome
    have hgb : getBlockTimeRemaining s now tr ch = ceilDiv (b.untilMs - now) 60000 := by
      simp [getBlockTimeRemaining, hsome]
    refine ⟨?_, ?_, hgb, ?_⟩
    · intro hpast
      constructor
      · simp [isBlocked, hsome, hpast]
      · simp [isBlocked, hsome, hpast]
        exact lookupKey_eraseKey_self _ _
    · intro hact
      simp [isBlocked, hsome, hact]
    · intro hlt
      rw [hgb]
      unfold ceilDiv
      have h1 : -(b.untilMs - now) ≤ -1 := by omega
      have h2 : -(b.untilMs - now) / 60000 ≤ (-1 : Int) / 60000 :=
        Int.ediv_le_ediv (by norm_num) h1
      have h3 : ((-1 : Int)) / 60000 = -1 := by decide
      omega

/-- C9 witness: the active lockout of `c9Active` (ends t=300000) queried at
t=30000 reports blocked with 5 whole minutes remaining (270000 ms
rounded up). -/
theorem lockout_lazy_expiry_amended_witness :
    (isBlocked c9Active 30000 "t" "c").1 = true ∧
    getBlockTimeRemaining c9Active 30000 "t" "c" = 5 ∧
    0 < getBlockTimeRemaining c9Active 30000 "t" "c" := by
  have h := (lockout_lazy_expiry_amended c9Active 30000 "t" "c").2 ⟨300000⟩ (by decide)
  refine ⟨by simp [h.2.1 (by decide)], ?_, h.2.2.2 (by decide)⟩
  rw [h.2.2.1]
  decide

/-- C10: a successful `untrustUser` also removes the removed user's
`dmChatId` from the authenticated-chat set, so afterwards
`isAuthenticated(transport, dmChatId)` is false, the user is no longer
trusted, and `canRespondTo` denies a DM from that user in that chat with
`not-dm-authed` — untrust fully cuts off DM access, not only channel
authorizations. -/
theorem untrust_cuts_dm_access (s : AuthState) (tr uid : String) (u : TrustedUser)
    (hu : lookupKey s.trustedUsers (makeUserKey tr uid) = some u) :
    isAuthenticated (untrustUser s tr uid).2 tr u.dmChatId = false ∧
    isUserTrusted (untrustUser s tr uid).2 tr uid = false ∧
    (∀ msg : ExternalMessage, msg.isDM = true → msg.transport = tr →
      msg.chatId = u.dmChatId → msg.userId = uid →
      canRespondTo (untrustUser s tr uid).2 msg = .denied .notDmAuthed) := by
  have h1 : isAuthenticated (untrustUser s tr uid).2 tr u.dmChatId = false := by
    simp [untrustUser, hu, saveToStorage, isAuthenticated]
    exact memKey_delKey_self _ _
  have h2 : isUserTrusted (untrustUser s tr uid).2 tr uid = false := by
    simp [untrustUser, hu, saveToStorage, isUserTrusted, lookupKey_eraseKey_self]
  refine ⟨h1, h2, ?_⟩
  intro msg hdm htr hcid huid
  simp [canRespondTo, hdm, htr, hcid, huid, h1, h2]

/-- C10 witness: after untrusting `tg:u1` in `c10State`, their DM from chat
`d1` is denied with `not-dm-authed`. -/
theorem untrust_cuts_dm_access_witness :
    canRespondTo (untrustUser c10State "tg" "u1").2 c10Msg = .denied .notDmAuthed :=
  (untrust_cuts_dm_access c10State "tg" "u1" tgUser (by decide)).2.2 c10Msg rfl rfl rfl rfl
